import Mathlib

/-!
Verification of the Smart Insights orchestration core against its
natural-language specification.  Go strings are modelled as lists of
characters, Go maps as functions into `Option`, fallible calls as
`Except`/`Option`, and the external world (database, LLM provider,
clock) as explicit environment records.  A Go run-time panic is
modelled as the `none` result of an `Option`-valued function.
-/

namespace SmartInsights

/-- A Go string, modelled as its sequence of characters. -/
abbrev Str := List Char

/-- Conversion from a Lean string literal to the model type. -/
def strOf (s : String) : Str := s.data

/-- The whitespace predicate of Go `unicode.IsSpace` on its Latin-1 fast
path: space, tab, newline, vertical tab, form feed, carriage return,
next line and no-break space. -/
def goIsSpace (c : Char) : Bool :=
  c = ' ' || c = '\t' || c = '\n' || c = '\x0b' || c = '\x0c' || c = '\r' ||
  c = '\u0085' || c = ' '

/-- Go `strings.TrimSpace`: drop whitespace from both ends. -/
def trimSpace (s : Str) : Str :=
  ((s.dropWhile goIsSpace).reverse.dropWhile goIsSpace).reverse

/-- Go `strings.ToLower`, restricted to the character mapping Lean provides. -/
def toLowerStr (s : Str) : Str := s.map Char.toLower

/-- Helper of `strIndex`: the first position at or after `i` (counting from
the original start) where `needle` begins in the remaining haystack. -/
def strIndexFrom (needle : Str) : Str → Nat → Option Nat
  | [], i => if needle <+: ([] : Str) then some i else none
  | c :: rest, i =>
      if needle <+: (c :: rest) then some i else strIndexFrom needle rest (i + 1)

/-- Go `strings.Index haystack needle`: the index of the first occurrence of
`needle` in `haystack`, `none` standing for the Go result -1. -/
def strIndex (haystack needle : Str) : Option Nat := strIndexFrom needle haystack 0

/-- The opening delimiter `fmt.Sprintf("<%s>", tag)` built by `ExtractResponse`. -/
def openTagOf (tag : Str) : Str := '<' :: (tag ++ ['>'])

/-- The closing delimiter `fmt.Sprintf("</%s>", tag)` built by `ExtractResponse`. -/
def closeTagOf (tag : Str) : Str := '<' :: '/' :: (tag ++ ['>'])

/-- Go `prompt.ExtractResponse`.  The source slices
`response[startIndex+len(startTag) : endIndex]`; when `endIndex` is smaller
than `startIndex+len(startTag)` that Go slice expression panics at run
time, which the model renders as `none`.  A `some` result is the value the
Go function returns. -/
def extractResponse (tag response : Str) : Option Str :=
  let startTag := openTagOf tag
  let endTag := closeTagOf tag
  match strIndex response startTag, strIndex response endTag with
  | some startIndex, some endIndex =>
      if startIndex + startTag.length ≤ endIndex then
        some (trimSpace
          ((response.drop (startIndex + startTag.length)).take
            (endIndex - (startIndex + startTag.length))))
      else
        none
  | _, _ => some []

/-- The error values of Go `prompt.ValidateQuery`. -/
inductive QueryError where
  | forbiddenKeyword (kw : Str)
  | mustStartWithSelect
deriving DecidableEq

/-- The `dangerousKeywords` slice of `prompt.ValidateQuery`, in source order. -/
def dangerousKeywords : List Str :=
  [ strOf "drop", strOf "truncate", strOf "delete", strOf "update",
    strOf "insert", strOf "alter", strOf "create" ]

/-- Go `prompt.ValidateQuery`: lowercase the trimmed query, reject on the
first forbidden keyword occurring as a substring, then require the
`select` prefix.  `none` is the nil error. -/
def validateQuery (query : Str) : Option QueryError :=
  let q := toLowerStr (trimSpace query)
  match dangerousKeywords.find? (fun k => decide (k <:+: q)) with
  | some k => some (QueryError.forbiddenKeyword k)
  | none =>
      if strOf "select" <+: q then none else some QueryError.mustStartWithSelect

/-- The `Type` field of `models.Update` (JSON `type`), an enumerated string
in the source: `step_output`, `debug_log`, `error` or `final_response`. -/
inductive UpdateKind where
  | step_output
  | debug_log
  | error
  | final_response
deriving DecidableEq

/-- The `Status` field of `models.AssistantResponse`, an enumerated string
in the source: `in_progress`, `completed` or `failed`. -/
inductive Status where
  | in_progress
  | completed
  | failed
deriving DecidableEq

/-- Go `models.Update`.  `timestamp` models the `time.Now()` reading; the
code writes it and never reads it back. -/
structure Update where
  text : Str
  timestamp : Nat
  type : UpdateKind
deriving DecidableEq

/-- Go `models.AssistantResponse`. -/
structure AssistantResponse where
  uuid : Str
  question : Str
  success : Bool
  status : Status
  response : List Update
deriving DecidableEq

/-- The `assistantResponses` map of `memory.MemoryStorage`, keyed by UUID. -/
def StorageMap := Str → Option AssistantResponse

/-- Go `MemoryStorage.SaveAssistantResponse`: an unconditional overwrite of
the record at the response UUID. -/
def saveAssistantResponse (m : StorageMap) (r : AssistantResponse) : StorageMap :=
  fun u => if u = r.uuid then some r else m u

/-- Go `MemoryStorage.LoadAssistantResponse`: `none` models the
`ErrResponseNotFound` error. -/
def loadAssistantResponse (m : StorageMap) (u : Str) : Option AssistantResponse := m u

/-- Go `ResponseAppender.AppendResponse`: load the record, append one update
built from the arguments and the clock, save.  The second component is
`true` when the Go call returned a nil error, `false` when the load
failed (the store is left unchanged). -/
def appendResponse (m : StorageMap) (uuid : Str) (utype : UpdateKind) (text : Str)
    (now : Nat) : StorageMap × Bool :=
  match loadAssistantResponse m uuid with
  | none => (m, false)
  | some response =>
      let u : Update := { text := text, timestamp := now, type := utype }
      (saveAssistantResponse m { response with response := response.response ++ [u] },
        true)

/-- Go `ResponseAppender.UpdateStatus`: load the record, overwrite its
status and success fields, save.  Second component as in `appendResponse`. -/
def updateStatus (m : StorageMap) (uuid : Str) (status : Status) (success : Bool) :
    StorageMap × Bool :=
  match loadAssistantResponse m uuid with
  | none => (m, false)
  | some response =>
      (saveAssistantResponse m { response with status := status, success := success },
        true)

/-- Go `AssistantManager.handleOrchestrationError`: build a fresh
`AssistantResponse` that carries only the error update (the question field
is left at its zero value) and save it, overwriting the stored record. -/
def handleOrchestrationError (m : StorageMap) (uuid : Str) (message : Str)
    (now : Nat) : StorageMap :=
  saveAssistantResponse m
    { uuid := uuid
      question := []
      success := false
      status := Status.failed
      response := [{ text := message, timestamp := now, type := UpdateKind.error }] }

/-- The initial record Go `AssistantManager.CreateAssistantRequest` saves
before launching the background task: status `in_progress`, success `true`,
one `step_output` update. -/
def initialResponse (uuid question : Str) : AssistantResponse :=
  { uuid := uuid
    question := question
    success := true
    status := Status.in_progress
    response := [{ text := strOf "Processing your request...", timestamp := 0,
                   type := UpdateKind.step_output }] }

/-- Outcomes of the external calls one orchestration run makes, in source
order: the database connection (`Registry.LoadSource`), the schema query
(`PostgresConnector.GetSchema`), the first LLM completion, the query
execution (`PostgresConnector.ExecuteQuery`) and the second LLM
completion.  Error payloads are the Go error texts. -/
structure RunEnv where
  connect : Except Str Unit
  schema : Except Str Str
  sqlCompletion : Except Str Str
  execResult : Except Str Str
  reportCompletion : Except Str Str

/-- What one orchestration run leaves behind: the final store, every
intermediate store in mutation order, the SQL texts passed to the
connector `ExecuteQuery`, and whether the deferred `recover` in
`Orchestrator.Run` fired. -/
structure RunOut where
  final : StorageMap
  states : List StorageMap
  executed : List Str
  panicked : Bool

/-- Go `Orchestrator.handleError`: append an `error` update with the
message, then set status `failed` with success `false`.  Returns the final
store and the two intermediate stores. -/
def handleErrorSteps (m : StorageMap) (askID message : Str) :
    StorageMap × List StorageMap :=
  let m1 := (appendResponse m askID UpdateKind.error message 0).1
  let m2 := (updateStatus m1 askID Status.failed false).1
  (m2, [m1, m2])

/-- Go `Orchestrator.Run`, with `source.PostgresConnector`'s own progress
appends inlined at the steps that perform them.  Where
`prompt.ExtractResponse` panics (its result is `none` here), control jumps
to the deferred `recover`, which only sets the failed status. -/
def orchestratorRun (env : RunEnv) (m0 : StorageMap) (askID : Str) : RunOut :=
  match loadAssistantResponse m0 askID with
  | none =>
      let (mF, sts) := handleErrorSteps m0 askID
        (strOf "Failed to load assistant response: assistant response not found")
      ⟨mF, sts, [], false⟩
  | some _ =>
    match env.connect with
    | Except.error e =>
        let m1 := (appendResponse m0 askID UpdateKind.error
          (strOf "Failed to connect to database: " ++ e) 0).1
        let (mF, sts) := handleErrorSteps m1 askID
          (strOf "Failed to connect to database: " ++ e)
        ⟨mF, m1 :: sts, [], false⟩
    | Except.ok _ =>
      let mA := (appendResponse m0 askID UpdateKind.step_output
        (strOf "Fetching database schema...") 0).1
      match env.schema with
      | Except.error e =>
          let (mF, sts) := handleErrorSteps mA askID
            (strOf "Failed to fetch database schema: " ++ e)
          ⟨mF, mA :: sts, [], false⟩
      | Except.ok _schema =>
        let mB := (appendResponse mA askID UpdateKind.debug_log
          (strOf "Processed tables: ") 0).1
        let mC := (appendResponse mB askID UpdateKind.step_output
          (strOf "Schema retrieval completed") 0).1
        let mD := (appendResponse mC askID UpdateKind.step_output
          (strOf "Generating SQL query... please wait") 0).1
        match env.sqlCompletion with
        | Except.error e =>
            let (mF, sts) := handleErrorSteps mD askID
              (strOf "Failed to generate SQL query: " ++ e)
            ⟨mF, [mA, mB, mC, mD] ++ sts, [], false⟩
        | Except.ok content =>
          match extractResponse (strOf "sql") content with
          | none =>
              let mR := (updateStatus mD askID Status.failed false).1
              ⟨mR, [mA, mB, mC, mD, mR], [], true⟩
          | some query =>
            if query = [] then
              let (mF, sts) := handleErrorSteps mD askID
                (strOf "Failed to generate SQL query: no SQL query found in LLM response")
              ⟨mF, [mA, mB, mC, mD] ++ sts, [], false⟩
            else
              match appendResponse mD askID UpdateKind.step_output query 0 with
              | (mE, false) =>
                  let (mF, sts) := handleErrorSteps mE askID
                    (strOf "Failed to generate SQL query: failed to save updated response")
                  ⟨mF, [mA, mB, mC, mD, mE] ++ sts, [], false⟩
              | (mE, true) =>
                match env.execResult with
                | Except.error e =>
                    let (mF, sts) := handleErrorSteps mE askID
                      (strOf "Failed to execute query: " ++ e)
                    ⟨mF, [mA, mB, mC, mD, mE] ++ sts, [query], false⟩
                | Except.ok _data =>
                  let mF1 := (appendResponse mE askID UpdateKind.step_output
                    (strOf "Query executed successfully") 0).1
                  let mG := (appendResponse mF1 askID UpdateKind.step_output
                    (strOf "Generating report...") 0).1
                  match env.reportCompletion with
                  | Except.error e =>
                      let (mF, sts) := handleErrorSteps mG askID
                        (strOf "Failed to generate final response: " ++ e)
                      ⟨mF, [mA, mB, mC, mD, mE, mF1, mG] ++ sts, [query], false⟩
                  | Except.ok rcontent =>
                    match extractResponse (strOf "markdown") rcontent with
                    | none =>
                        let mR := (updateStatus mG askID Status.failed false).1
                        ⟨mR, [mA, mB, mC, mD, mE, mF1, mG, mR], [query], true⟩
                    | some md =>
                      if md = [] then
                        let (mF, sts) := handleErrorSteps mG askID
                          (strOf "Failed to generate final response: no markdown content found in LLM response")
                        ⟨mF, [mA, mB, mC, mD, mE, mF1, mG] ++ sts, [query], false⟩
                      else
                        match appendResponse mG askID UpdateKind.final_response md 0 with
                        | (mH, false) =>
                            let (mF, sts) := handleErrorSteps mH askID
                              (strOf "Failed to generate final response: failed to append final response")
                            ⟨mF, [mA, mB, mC, mD, mE, mF1, mG, mH] ++ sts, [query], false⟩
                        | (mH, true) =>
                            let mI := (updateStatus mH askID Status.completed true).1
                            ⟨mI, [mA, mB, mC, mD, mE, mF1, mG, mH, mI], [query], false⟩

/-- Outcome of the background work `CreateAssistantRequest` does before
`Orchestrator.Run`: loading the LLM configuration, the type assertion and
`NewOrchestrator`.  `some msg` means one of them failed with that message,
handled by `handleOrchestrationError`; `none` means `Run` is reached. -/
structure OrchEnv where
  preRun : Option Str
  runEnv : RunEnv

/-- The orchestration path of one accepted request: the initial save done
by `CreateAssistantRequest`, then either `handleOrchestrationError` or the
full `Orchestrator.Run`.  Returns the final store, every store reachable
through the path (starting with the one holding the initial response), the
executed queries and the panic flag. -/
def orchestration (env : OrchEnv) (m0 : StorageMap) (uuid question : Str) : RunOut :=
  let m1 := saveAssistantResponse m0 (initialResponse uuid question)
  match env.preRun with
  | some msg =>
      let m2 := handleOrchestrationError m1 uuid msg 0
      ⟨m2, [m1, m2], [], false⟩
  | none =>
      let out := orchestratorRun env.runEnv m1 uuid
      ⟨out.final, m1 :: out.states, out.executed, out.panicked⟩

/-- The number of updates of a given kind a record carries. -/
def countKind (k : UpdateKind) (r : AssistantResponse) : Nat :=
  r.response.countP (fun u => decide (u.type = k))

/-- Go `models.DatabaseConfig`, the fields `createConnectionPool` reads. -/
structure DatabaseConfig where
  host : Str
  port : Str
  username : Str
  password : Str
  dbName : Str

/-- One `*sql.DB` connection pool: its identity and the sizing limits
`createConnectionPool` sets on it. -/
structure Pool where
  id : Nat
  maxOpenConns : Nat
  maxIdleConns : Nat
  connMaxLifetimeHours : Nat
deriving DecidableEq

/-- The external world `Registry.LoadSource` interacts with: the
configuration store (`storage.LoadDatabaseConfig`, `none` modelling
`ErrConfigNotFound`), whether `sql.Open` itself errors, the identity of the
pool a successful `sql.Open` yields, and the liveness oracle behind
`db.Ping`, per pool identity. -/
structure SourceWorld where
  dbConfig : Str → Option DatabaseConfig
  openFails : Bool
  freshId : Nat
  ping : Nat → Bool

/-- The `pools` map of `source.Registry`, keyed by configuration name. -/
def RegState := Str → Option Pool

/-- Errors of the `Registry.LoadSource` path. -/
inductive LoadSourceError where
  | configNotFound
  | openError
  | pingError
deriving DecidableEq

/-- Go `source.createConnectionPool`: open a pool, set the fixed sizing
limits (25 max open, 5 max idle, one hour max lifetime), then verify it
with a ping; a failed ping closes the pool and returns the error. -/
def createConnectionPool (w : SourceWorld) (_config : DatabaseConfig) :
    Except LoadSourceError Pool :=
  if w.openFails then Except.error LoadSourceError.openError
  else
    let db : Pool := { id := w.freshId, maxOpenConns := 25, maxIdleConns := 5,
                       connMaxLifetimeHours := 1 }
    if w.ping db.id then Except.ok db else Except.error LoadSourceError.pingError

/-- Go `Registry.LoadSource`: reuse a cached pool that still pings,
discard a cached pool whose ping fails, and otherwise load the
configuration, create a fresh pool and cache it.  Returns the connector's
pool and the new `pools` map. -/
def loadSource (w : SourceWorld) (st : RegState) (dbConfigName : Str) :
    Except LoadSourceError Pool × RegState :=
  match st dbConfigName with
  | some pool =>
      if w.ping pool.id then (Except.ok pool, st)
      else
        let st' : RegState := fun n => if n = dbConfigName then none else st n
        match w.dbConfig dbConfigName with
        | none => (Except.error LoadSourceError.configNotFound, st')
        | some config =>
            match createConnectionPool w config with
            | Except.error e => (Except.error e, st')
            | Except.ok pool' =>
                (Except.ok pool',
                  fun n => if n = dbConfigName then some pool' else st' n)
  | none =>
      match w.dbConfig dbConfigName with
      | none => (Except.error LoadSourceError.configNotFound, st)
      | some config =>
          match createConnectionPool w config with
          | Except.error e => (Except.error e, st)
          | Except.ok pool' =>
              (Except.ok pool',
                fun n => if n = dbConfigName then some pool' else st n)

/-- What one background goroutine of `CreateAssistantRequest` is doing with
respect to the admission channel `orchestratorPool`: not yet admitted,
holding a slot (the buffered-channel send succeeded), or finished (the
deferred receive ran, on every exit path of the goroutine). -/
inductive TaskPhase where
  | idle
  | holding
  | done
deriving DecidableEq

/-- A system of `M` background tasks, each in one phase. -/
def SysState (M : Nat) := Fin M → TaskPhase

/-- How many tasks currently occupy an admission slot. -/
def holdingCount {M : Nat} (s : SysState M) : Nat :=
  (Finset.univ.filter fun i => s i = TaskPhase.holding).card

/-- Go semantics of the buffered channel of capacity `N` used as the
admission semaphore: a send (`acquire`) succeeds only while fewer than `N`
slots are taken, otherwise the goroutine blocks and no transition exists
for it; the deferred receive (`release`) frees the slot on every exit path
of the guarded section. -/
inductive AdmissionStep (N : Nat) {M : Nat} : SysState M → SysState M → Prop where
  | acquire (s : SysState M) (i : Fin M) (hidle : s i = TaskPhase.idle)
      (hroom : holdingCount s < N) :
      AdmissionStep N s (Function.update s i TaskPhase.holding)
  | release (s : SysState M) (i : Fin M) (hhold : s i = TaskPhase.holding) :
      AdmissionStep N s (Function.update s i TaskPhase.done)

/-- States reachable from the all-idle start by admission transitions. -/
inductive AdmissionReachable (N : Nat) {M : Nat} : SysState M → Prop where
  | init : AdmissionReachable N (fun _ => TaskPhase.idle)
  | step {s t : SysState M} : AdmissionReachable N s → AdmissionStep N s t →
      AdmissionReachable N t

/-! ## Basic lemmas about the storage operations -/

theorem saveAssistantResponse_apply_self (m : StorageMap) (r : AssistantResponse)
    (u : Str) (h : r.uuid = u) : saveAssistantResponse m r u = some r := by
  simp [saveAssistantResponse, h]

theorem appendResponse_save (m : StorageMap) (r : AssistantResponse) (u : Str)
    (k : UpdateKind) (t : Str) (n : Nat) (h : r.uuid = u) :
    appendResponse (saveAssistantResponse m r) u k t n =
      (saveAssistantResponse (saveAssistantResponse m r)
        { r with response := r.response ++ [{ text := t, timestamp := n, type := k }] },
       true) := by
  simp [appendResponse, loadAssistantResponse, saveAssistantResponse_apply_self m r u h]

theorem updateStatus_save (m : StorageMap) (r : AssistantResponse) (u : Str)
    (st : Status) (su : Bool) (h : r.uuid = u) :
    updateStatus (saveAssistantResponse m r) u st su =
      (saveAssistantResponse (saveAssistantResponse m r)
        { r with status := st, success := su }, true) := by
  simp [updateStatus, loadAssistantResponse, saveAssistantResponse_apply_self m r u h]

/-! ## C1 -/

/-- C1, counterexample.  From the store holding exactly the record the
handler saves at acceptance (one `step_output` update),
`handleOrchestrationError` overwrites the record with a fresh one holding a
single `error` update: the previously appended update is no longer present,
so the orchestration path does not leave all previously appended updates in
place. -/
theorem handleOrchestrationError_truncates :
  (saveAssistantResponse (fun _ => none) (initialResponse (strOf "u1") (strOf "q1")))
      (strOf "u1") = some (initialResponse (strOf "u1") (strOf "q1")) ∧
  (handleOrchestrationError
      (saveAssistantResponse (fun _ => none) (initialResponse (strOf "u1") (strOf "q1")))
      (strOf "u1") (strOf "LLM configuration not found") 1) (strOf "u1") =
    some { uuid := strOf "u1", question := [], success := false, status := Status.failed,
           response := [{ text := strOf "LLM configuration not found", timestamp := 1,
                          type := UpdateKind.error }] } ∧
  (initialResponse (strOf "u1") (strOf "q1")).response ≠ [] ∧
  ¬ ((initialResponse (strOf "u1") (strOf "q1")).response <+:
      [({ text := strOf "LLM configuration not found", timestamp := 1,
          type := UpdateKind.error } : Update)]) := by
  refine ⟨by decide, by decide, by decide, by decide⟩

/-- C1, amended: `AppendResponse` extends the stored update sequence by one
entry and `UpdateStatus` leaves it unchanged (both leave every other
request id untouched, and leave the store unchanged when the id is
unknown), but `handleOrchestrationError` replaces the stored record by a
fresh one holding a single error update, discarding the updates appended
before it. -/
theorem updates_append_only_amended :
  (∀ (m : StorageMap) (uuid : Str) (k : UpdateKind) (t : Str) (n : Nat)
      (r : AssistantResponse), m uuid = some r → r.uuid = uuid →
      (appendResponse m uuid k t n).1 uuid =
        some { r with response := r.response ++ [{ text := t, timestamp := n, type := k }] })
  ∧ (∀ (m : StorageMap) (uuid : Str) (k : UpdateKind) (t : Str) (n : Nat) (v : Str)
      (r : AssistantResponse), m uuid = some r → r.uuid = uuid →
      v ≠ uuid → (appendResponse m uuid k t n).1 v = m v)
  ∧ (∀ (m : StorageMap) (uuid : Str) (k : UpdateKind) (t : Str) (n : Nat),
      m uuid = none → (appendResponse m uuid k t n).1 = m)
  ∧ (∀ (m : StorageMap) (uuid : Str) (st : Status) (su : Bool)
      (r : AssistantResponse), m uuid = some r → r.uuid = uuid →
      (updateStatus m uuid st su).1 uuid = some { r with status := st, success := su })
  ∧ (∀ (m : StorageMap) (uuid : Str) (st : Status) (su : Bool) (v : Str)
      (r : AssistantResponse), m uuid = some r → r.uuid = uuid →
      v ≠ uuid → (updateStatus m uuid st su).1 v = m v)
  ∧ (∀ (m : StorageMap) (uuid : Str) (st : Status) (su : Bool),
      m uuid = none → (updateStatus m uuid st su).1 = m)
  ∧ (∀ (m : StorageMap) (uuid msg : Str) (n : Nat),
      (handleOrchestrationError m uuid msg n) uuid =
        some { uuid := uuid, question := [], success := false, status := Status.failed,
               response := [{ text := msg, timestamp := n, type := UpdateKind.error }] }) := by
  refine ⟨?_, ?_, ?_, ?_, ?_, ?_, ?_⟩
  · intro m uuid k t n r h h2
    simp [appendResponse, loadAssistantResponse, h, saveAssistantResponse, h2]
  · intro m uuid k t n v r h h2 hv
    simp [appendResponse, loadAssistantResponse, h, saveAssistantResponse, h2, hv]
  · intro m uuid k t n h
    simp [appendResponse, loadAssistantResponse, h]
  · intro m uuid st su r h h2
    simp [updateStatus, loadAssistantResponse, h, saveAssistantResponse, h2]
  · intro m uuid st su v r h h2 hv
    simp [updateStatus, loadAssistantResponse, h, saveAssistantResponse, h2, hv]
  · intro m uuid st su h
    simp [updateStatus, loadAssistantResponse, h]
  · intro m uuid msg n
    simp [handleOrchestrationError, saveAssistantResponse]

/-! ## C7 -/

/-- C7: `ValidateQuery` errors exactly when the lowercased, trimmed text
contains one of the seven forbidden keywords as a substring or does not
start with `select`; in particular `select * from updates_log` is rejected
for containing `update`. -/
theorem validateQuery_spec :
  (∀ q : Str, (validateQuery q).isSome = true ↔
      ((∃ k ∈ dangerousKeywords, k <:+: toLowerStr (trimSpace q)) ∨
       ¬ strOf "select" <+: toLowerStr (trimSpace q)))
  ∧ validateQuery (strOf "select * from updates_log") =
      some (QueryError.forbiddenKeyword (strOf "update")) := by
  constructor
  · intro q
    unfold validateQuery
    rcases h : dangerousKeywords.find?
        (fun k => decide (k <:+: toLowerStr (trimSpace q))) with _ | k
    · have hnone : ∀ k ∈ dangerousKeywords, ¬ k <:+: toLowerStr (trimSpace q) := by
        intro k hk
        have := List.find?_eq_none.mp h k hk
        simpa using this
      simp only [h]
      by_cases hsel : strOf "select" <+: toLowerStr (trimSpace q)
      · rw [if_pos hsel]
        simp only [Option.isSome_none, Bool.false_eq_true, false_iff]
        rintro (⟨k, hk, hinf⟩ | hns)
        · exact hnone k hk hinf
        · exact hns hsel
      · rw [if_neg hsel]
        simp only [Option.isSome_some, true_iff]
        exact Or.inr hsel
    · have hmem := List.mem_of_find?_eq_some h
      have hp : k <:+: toLowerStr (trimSpace q) := by
        have := List.find?_some h
        simpa using this
      simp only [h, Option.isSome_some, true_iff]
      exact Or.inl ⟨k, hmem, hp⟩
  · decide

/-! ## C10 -/

/-- C10: on the input where the first occurrence of the closing delimiter
precedes the first occurrence of the opening delimiter, the Go slice
expression `response[startIndex+len(startTag):endIndex]` has its lower
bound 14 above its upper bound 0, so the function panics at run time
instead of returning a string; the model renders that fault as `none`.
The claim that `ExtractResponse` always returns without a run-time fault
is therefore wrong on this input. -/
theorem extractResponse_reversed_tags_fault :
  strIndex (strOf "</sql> x <sql>") (openTagOf (strOf "sql")) = some 9 ∧
  strIndex (strOf "</sql> x <sql>") (closeTagOf (strOf "sql")) = some 0 ∧
  extractResponse (strOf "sql") (strOf "</sql> x <sql>") = none := by
  refine ⟨by decide, by decide, by decide⟩

/-! ## C8 -/

/-- C8: `Registry.LoadSource` reuses a cached pool that still pings,
discards and recreates one whose ping fails, fails with the
config-not-found error when no configuration exists, opens fresh pools
with the fixed sizing limits 25/5/1h, and does not cache a fresh pool
whose initial ping fails. -/
theorem loadSource_spec :
  ∀ (w : SourceWorld) (st : RegState) (name : Str),
  (∀ p, st name = some p → w.ping p.id = true →
      loadSource w st name = (Except.ok p, st))
  ∧ (∀ p, st name = some p → w.ping p.id = false → w.dbConfig name = none →
      (loadSource w st name).1 = Except.error LoadSourceError.configNotFound ∧
      (loadSource w st name).2 name = none)
  ∧ (∀ p c, st name = some p → w.ping p.id = false → w.dbConfig name = some c →
      w.openFails = false → w.ping w.freshId = true →
      (loadSource w st name).1 =
        Except.ok { id := w.freshId, maxOpenConns := 25, maxIdleConns := 5,
                    connMaxLifetimeHours := 1 } ∧
      (loadSource w st name).2 name =
        some { id := w.freshId, maxOpenConns := 25, maxIdleConns := 5,
               connMaxLifetimeHours := 1 })
  ∧ (∀ p c, st name = some p → w.ping p.id = false → w.dbConfig name = some c →
      w.openFails = false → w.ping w.freshId = false →
      (loadSource w st name).1 = Except.error LoadSourceError.pingError ∧
      (loadSource w st name).2 name = none)
  ∧ (st name = none → w.dbConfig name = none →
      loadSource w st name = (Except.error LoadSourceError.configNotFound, st))
  ∧ (∀ c, st name = none → w.dbConfig name = some c → w.openFails = false →
      w.ping w.freshId = true →
      (loadSource w st name).1 =
        Except.ok { id := w.freshId, maxOpenConns := 25, maxIdleConns := 5,
                    connMaxLifetimeHours := 1 } ∧
      (loadSource w st name).2 name =
        some { id := w.freshId, maxOpenConns := 25, maxIdleConns := 5,
               connMaxLifetimeHours := 1 })
  ∧ (∀ c, st name = none → w.dbConfig name = some c → w.openFails = false →
      w.ping w.freshId = false →
      loadSource w st name = (Except.error LoadSourceError.pingError, st)) := by
  intro w st name
  refine ⟨?_, ?_, ?_, ?_, ?_, ?_, ?_⟩
  · intro p h hping
    simp [loadSource, h, hping]
  · intro p h hping hcfg
    simp [loadSource, h, hping, hcfg]
  · intro p c h hping hcfg hopen hfresh
    simp [loadSource, createConnectionPool, h, hping, hcfg, hopen, hfresh]
  · intro p c h hping hcfg hopen hfresh
    simp [loadSource, createConnectionPool, h, hping, hcfg, hopen, hfresh]
  · intro h hcfg
    simp [loadSource, h, hcfg]
  · intro c h hcfg hopen hfresh
    simp [loadSource, createConnectionPool, h, hcfg, hopen, hfresh]
  · intro c h hcfg hopen hfresh
    simp [loadSource, createConnectionPool, h, hcfg, hopen, hfresh]

/-! ## C6: characterizing strIndex -/

theorem strIndexFrom_eq_of_first (needle : Str) :
    ∀ (hay : Str) (i j : Nat), needle <+: hay.drop j →
      (∀ k < j, ¬ needle <+: hay.drop k) →
      strIndexFrom needle hay i = some (i + j) := by
  intro hay
  induction hay with
  | nil =>
      intro i j hpre hmin
      have hj : j = 0 := by
        by_contra hne
        exact hmin 0 (Nat.pos_of_ne_zero hne) (by simpa using hpre)
      subst hj
      simp only [List.drop_nil] at hpre
      simp [strIndexFrom, hpre]
  | cons c rest ih =>
      intro i j hpre hmin
      cases j with
      | zero =>
          simp only [List.drop_zero] at hpre
          simp [strIndexFrom, hpre]
      | succ j' =>
          have hnot : ¬ needle <+: (c :: rest) := by
            have := hmin 0 (Nat.succ_pos j')
            simpa using this
          rw [strIndexFrom, if_neg hnot]
          have hrec := ih (i + 1) j' (by simpa using hpre)
            (fun k hk => by
              have := hmin (k + 1) (Nat.succ_lt_succ hk)
              simpa using this)
          rw [hrec]
          congr 1
          omega

theorem strIndexFrom_eq_none_of_not_infix (needle : Str) :
    ∀ (hay : Str) (i : Nat), ¬ needle <:+: hay → strIndexFrom needle hay i = none := by
  intro hay
  induction hay with
  | nil =>
      intro i hinf
      have : ¬ needle <+: ([] : Str) := fun h => hinf h.isInfix
      simp [strIndexFrom, this]
  | cons c rest ih =>
      intro i hinf
      have hnot : ¬ needle <+: (c :: rest) := fun h => hinf h.isInfix
      rw [strIndexFrom, if_neg hnot]
      exact ih (i + 1) (fun h => hinf (List.infix_cons h))

theorem strIndex_decomp (needle pre post : Str)
    (hmin : ∀ k < pre.length, ¬ needle <+: (pre ++ needle ++ post).drop k) :
    strIndex (pre ++ needle ++ post) needle = some pre.length := by
  have h := strIndexFrom_eq_of_first needle (pre ++ needle ++ post) 0 pre.length
    (by
      rw [List.append_assoc, List.drop_left]
      exact List.prefix_append needle post)
    hmin
  simpa [strIndex] using h

/-- C6, counterexample.  The input decomposes as prefix `x</sql>`, the
first (and only) `<sql>`/`</sql>` pair with interior `a`, and an empty
tail, so the claimed result is the trimmed interior `a`; the function
instead hits the out-of-range Go slice (the first `</sql>` starts before
the end of the first `<sql>`) and faults, returning neither the interior
nor the empty string. -/
theorem extractResponse_first_pair_fault :
  strOf "x</sql><sql>a</sql>" =
    strOf "x</sql>" ++ openTagOf (strOf "sql") ++ strOf "a" ++
      closeTagOf (strOf "sql") ++ [] ∧
  trimSpace (strOf "a") = strOf "a" ∧
  extractResponse (strOf "sql") (strOf "x</sql><sql>a</sql>") = none := by
  refine ⟨by decide, by decide, by decide⟩

/-- C6, amended: when the response decomposes as `pre ++ <tag> ++ mid ++
</tag> ++ post` with no occurrence of `<tag>` starting before `pre` ends
and no occurrence of `</tag>` starting before `mid` ends, the function
returns the trimmed interior `mid`; it returns the empty string whenever
either delimiter does not occur at all (in particular on
`no tags here`).  When instead the first occurrence of `</tag>` starts
before the first occurrence of `<tag>` ends, the Go slice faults (see the
counterexample), so the original unconditional claim fails. -/
theorem extractResponse_amended :
  (∀ (tag pre mid post : Str),
      (∀ j < pre.length,
        ¬ openTagOf tag <+:
          (pre ++ openTagOf tag ++ mid ++ closeTagOf tag ++ post).drop j) →
      (∀ j < pre.length + (openTagOf tag).length + mid.length,
        ¬ closeTagOf tag <+:
          (pre ++ openTagOf tag ++ mid ++ closeTagOf tag ++ post).drop j) →
      extractResponse tag (pre ++ openTagOf tag ++ mid ++ closeTagOf tag ++ post) =
        some (trimSpace mid))
  ∧ (∀ (tag response : Str), ¬ openTagOf tag <:+: response →
      extractResponse tag response = some [])
  ∧ (∀ (tag response : Str), ¬ closeTagOf tag <:+: response →
      extractResponse tag response = some [])
  ∧ extractResponse (strOf "sql") (strOf "no tags here") = some [] := by
  refine ⟨?_, ?_, ?_, by decide⟩
  · intro tag pre mid post hopen hclose
    have hs : strIndex (pre ++ openTagOf tag ++ mid ++ closeTagOf tag ++ post)
        (openTagOf tag) = some pre.length := by
      have := strIndex_decomp (openTagOf tag) pre
        (mid ++ closeTagOf tag ++ post)
        (by
          intro k hk
          have := hopen k hk
          simpa [List.append_assoc] using this)
      simpa [List.append_assoc] using this
    have he : strIndex (pre ++ openTagOf tag ++ mid ++ closeTagOf tag ++ post)
        (closeTagOf tag) =
        some (pre.length + (openTagOf tag).length + mid.length) := by
      have hlen : (pre ++ openTagOf tag ++ mid).length =
          pre.length + (openTagOf tag).length + mid.length := by
        simp only [List.length_append]
      have hmain := strIndex_decomp (closeTagOf tag) (pre ++ openTagOf tag ++ mid) post
        (by
          intro k hk
          rw [hlen] at hk
          exact hclose k hk)
      rw [hlen] at hmain
      exact hmain
    rw [extractResponse]
    simp only [hs, he]
    rw [if_pos (by omega)]
    have hdrop : (pre ++ openTagOf tag ++ mid ++ closeTagOf tag ++ post).drop
        (pre.length + (openTagOf tag).length) =
        mid ++ closeTagOf tag ++ post := by
      have : pre ++ openTagOf tag ++ mid ++ closeTagOf tag ++ post =
          (pre ++ openTagOf tag) ++ (mid ++ closeTagOf tag ++ post) := by
        simp [List.append_assoc]
      rw [this, ← List.length_append pre (openTagOf tag), List.drop_left]
    rw [hdrop]
    have htake : (mid ++ closeTagOf tag ++ post).take
        (pre.length + (openTagOf tag).length + mid.length -
          (pre.length + (openTagOf tag).length)) = mid := by
      have h1 : pre.length + (openTagOf tag).length + mid.length -
          (pre.length + (openTagOf tag).length) = mid.length := by omega
      rw [h1, List.append_assoc, List.take_left]
    rw [htake]
  · intro tag response hinf
    have h := strIndexFrom_eq_none_of_not_infix (openTagOf tag) response 0 hinf
    rw [extractResponse]
    simp only [strIndex] at h ⊢
    rw [h]
  · intro tag response hinf
    have h := strIndexFrom_eq_none_of_not_infix (closeTagOf tag) response 0 hinf
    rw [extractResponse]
    simp only [strIndex] at h ⊢
    rw [h]
    cases strIndexFrom (openTagOf tag) response 0 <;> rfl

/-! ## C5 -/

/-- C5: a run that reaches the first LLM completion and extracts the empty
string from its text ends failed with success `false`, carries an error
update, and never acquires a `final_response` update. -/
theorem empty_sql_extraction_fails_run
    (env : OrchEnv) (m0 : StorageMap) (uuid question schema content : Str)
    (hpre : env.preRun = none)
    (hconn : env.runEnv.connect = Except.ok ())
    (hschema : env.runEnv.schema = Except.ok schema)
    (hsql : env.runEnv.sqlCompletion = Except.ok content)
    (hext : extractResponse (strOf "sql") content = some []) :
    ∃ r, (orchestration env m0 uuid question).final uuid = some r ∧
      r.status = Status.failed ∧ r.success = false ∧
      0 < countKind UpdateKind.error r ∧
      countKind UpdateKind.final_response r = 0 := by
  simp only [orchestration, hpre, orchestratorRun, handleErrorSteps,
    loadAssistantResponse, hconn, hschema, hsql, hext,
    saveAssistantResponse_apply_self, appendResponse_save, updateStatus_save,
    initialResponse, if_pos]
  refine ⟨_, rfl, rfl, rfl, ?_, ?_⟩ <;>
    simp [countKind, List.countP_append, List.countP_cons]

/-- Environment of a concrete run whose first completion carries no `<sql>`
tag, so extraction yields the empty string. -/
def emptySqlEnv : OrchEnv :=
  { preRun := none
    runEnv :=
      { connect := Except.ok ()
        schema := Except.ok (strOf "Database Schema")
        sqlCompletion := Except.ok (strOf "no tags here")
        execResult := Except.error []
        reportCompletion := Except.error [] } }

/-- C5, witness at a concrete environment. -/
theorem empty_sql_extraction_fails_run_witness :
    ∃ r, (orchestration emptySqlEnv (fun _ => none) (strOf "u5") (strOf "q5")).final
        (strOf "u5") = some r ∧
      r.status = Status.failed ∧ r.success = false ∧
      0 < countKind UpdateKind.error r ∧
      countKind UpdateKind.final_response r = 0 :=
  empty_sql_extraction_fails_run emptySqlEnv (fun _ => none) (strOf "u5") (strOf "q5")
    (strOf "Database Schema") (strOf "no tags here") rfl rfl rfl rfl (by decide)

/-! ## C2 -/

/-- C2, amended: the orchestration path never consults `ValidateQuery`; the
only gate between the first completion and `ExecuteQuery` is that the
extracted tag interior is non-empty, so every executed query is exactly
the non-empty extraction of the completion text, whatever the validator
would say about it. -/
theorem executed_queries_bypass_validator
    (env : OrchEnv) (m0 : StorageMap) (uuid question q : Str)
    (hq : q ∈ (orchestration env m0 uuid question).executed) :
    env.preRun = none ∧
    ∃ content, env.runEnv.sqlCompletion = Except.ok content ∧
      extractResponse (strOf "sql") content = some q ∧ q ≠ [] := by
  rcases env with ⟨pre, ⟨conn, schema, sqlc, execr, repc⟩⟩
  cases pre with
  | some msg => simp [orchestration] at hq
  | none =>
    simp only [orchestration] at hq
    cases conn with
    | error e => simp [orchestratorRun, loadAssistantResponse,
        saveAssistantResponse_apply_self, initialResponse, handleErrorSteps] at hq
    | ok u =>
      cases schema with
      | error e => simp [orchestratorRun, loadAssistantResponse,
          saveAssistantResponse_apply_self, initialResponse, handleErrorSteps] at hq
      | ok s =>
        cases sqlc with
        | error e => simp [orchestratorRun, loadAssistantResponse,
            saveAssistantResponse_apply_self, initialResponse, handleErrorSteps] at hq
        | ok content =>
          rcases hext : extractResponse (strOf "sql") content with _ | query
          · simp [orchestratorRun, loadAssistantResponse,
              saveAssistantResponse_apply_self, initialResponse,
              handleErrorSteps, hext] at hq
          · by_cases hq0 : query = []
            · simp [orchestratorRun, loadAssistantResponse,
                saveAssistantResponse_apply_self, initialResponse,
                handleErrorSteps, hext, hq0] at hq
            · have hqeq : q = query := by
                cases execr with
                | error e =>
                    simp [orchestratorRun, loadAssistantResponse,
                      saveAssistantResponse_apply_self, appendResponse_save,
                      updateStatus_save, initialResponse, handleErrorSteps,
                      hext, hq0] at hq
                    exact hq
                | ok d =>
                  cases repc with
                  | error e =>
                      simp [orchestratorRun, loadAssistantResponse,
                        saveAssistantResponse_apply_self, appendResponse_save,
                        updateStatus_save, initialResponse, handleErrorSteps,
                        hext, hq0] at hq
                      exact hq
                  | ok rcontent =>
                    rcases hmd : extractResponse (strOf "markdown") rcontent with _ | md
                    · simp [orchestratorRun, loadAssistantResponse,
                        saveAssistantResponse_apply_self, appendResponse_save,
                        updateStatus_save, initialResponse, handleErrorSteps,
                        hext, hq0, hmd] at hq
                      exact hq
                    · by_cases hmd0 : md = [] <;>
                        simp [orchestratorRun, loadAssistantResponse,
                          saveAssistantResponse_apply_self, appendResponse_save,
                          updateStatus_save, initialResponse, handleErrorSteps,
                          hext, hq0, hmd, hmd0] at hq <;>
                        exact hq
              subst hqeq
              exact ⟨rfl, content, rfl, hext, hq0⟩

/-- Environment of a concrete run whose first completion carries a tagged
query the validator would reject. -/
def forbiddenQueryEnv : OrchEnv :=
  { preRun := none
    runEnv :=
      { connect := Except.ok ()
        schema := Except.ok (strOf "Database Schema")
        sqlCompletion := Except.ok (strOf "<sql>drop table users</sql>")
        execResult := Except.ok (strOf "rows")
        reportCompletion := Except.error [] } }

/-- C2, witness at a concrete environment. -/
theorem executed_queries_bypass_validator_witness :
    forbiddenQueryEnv.preRun = none ∧
    ∃ content, forbiddenQueryEnv.runEnv.sqlCompletion = Except.ok content ∧
      extractResponse (strOf "sql") content = some (strOf "drop table users") ∧
      strOf "drop table users" ≠ [] :=
  executed_queries_bypass_validator forbiddenQueryEnv (fun _ => none)
    (strOf "u2") (strOf "q2") (strOf "drop table users") (by decide)

/-- C2, counterexample.  A run whose completion carries `drop table users`
passes that text to the connector `ExecuteQuery` even though
`ValidateQuery` rejects it: no validation happens on the orchestration
path. -/
theorem validator_rejected_query_executed :
    (orchestration forbiddenQueryEnv (fun _ => none) (strOf "u2") (strOf "q2")).executed =
      [strOf "drop table users"] ∧
    validateQuery (strOf "drop table users") =
      some (QueryError.forbiddenKeyword (strOf "drop")) := by
  refine ⟨by decide, by decide⟩

/-! ## C3 -/

/-- C3, amended: every finished orchestration leaves the record terminal
(`completed` or `failed`, never `in_progress`), with `success` matching the
terminal status.  On every handled `Failed` transition an error update is
appended before the failed status is set; but a run terminated by a panic
caught at the task boundary sets the failed status without appending any
error update. -/
theorem run_failed_handling_amended :
  ∀ (env : OrchEnv) (m0 : StorageMap) (uuid question : Str),
    ∃ r, (orchestration env m0 uuid question).final uuid = some r ∧
      (r.status = Status.completed ∨ r.status = Status.failed) ∧
      (r.status = Status.completed → r.success = true) ∧
      (r.status = Status.failed → r.success = false) ∧
      ((orchestration env m0 uuid question).panicked = false →
        r.status = Status.failed → 0 < countKind UpdateKind.error r) ∧
      ((orchestration env m0 uuid question).panicked = true →
        r.status = Status.failed ∧ countKind UpdateKind.error r = 0) := by
  intro env m0 uuid question
  rcases env with ⟨pre, ⟨conn, schema, sqlc, execr, repc⟩⟩
  cases pre with
  | some msg =>
      simp only [orchestration, handleOrchestrationError,
        saveAssistantResponse_apply_self]
      refine ⟨_, rfl, ?_, ?_, ?_, ?_, ?_⟩ <;> simp [countKind]
  | none =>
    cases conn with
    | error e =>
        simp only [orchestration, orchestratorRun, handleErrorSteps,
          loadAssistantResponse, saveAssistantResponse_apply_self,
          appendResponse_save, updateStatus_save, initialResponse]
        refine ⟨_, rfl, ?_, ?_, ?_, ?_, ?_⟩ <;> simp [countKind]
    | ok u =>
      cases schema with
      | error e =>
          simp only [orchestration, orchestratorRun, handleErrorSteps,
            loadAssistantResponse, saveAssistantResponse_apply_self,
            appendResponse_save, updateStatus_save, initialResponse]
          refine ⟨_, rfl, ?_, ?_, ?_, ?_, ?_⟩ <;> simp [countKind]
      | ok s =>
        cases sqlc with
        | error e =>
            simp only [orchestration, orchestratorRun, handleErrorSteps,
              loadAssistantResponse, saveAssistantResponse_apply_self,
              appendResponse_save, updateStatus_save, initialResponse]
            refine ⟨_, rfl, ?_, ?_, ?_, ?_, ?_⟩ <;> simp [countKind]
        | ok content =>
          rcases hext : extractResponse (strOf "sql") content with _ | query
          · simp only [orchestration, orchestratorRun, handleErrorSteps,
              loadAssistantResponse, saveAssistantResponse_apply_self,
              appendResponse_save, updateStatus_save, initialResponse, hext]
            refine ⟨_, rfl, ?_, ?_, ?_, ?_, ?_⟩ <;> simp [countKind]
          · by_cases hq0 : query = []
            · simp only [orchestration, orchestratorRun, handleErrorSteps,
                loadAssistantResponse, saveAssistantResponse_apply_self,
                appendResponse_save, updateStatus_save, initialResponse, hext,
                hq0, if_pos]
              refine ⟨_, rfl, ?_, ?_, ?_, ?_, ?_⟩ <;> simp [countKind]
            · cases execr with
              | error e =>
                  simp only [orchestration, orchestratorRun, handleErrorSteps,
                    loadAssistantResponse, saveAssistantResponse_apply_self,
                    appendResponse_save, updateStatus_save, initialResponse,
                    hext, if_neg hq0]
                  refine ⟨_, rfl, ?_, ?_, ?_, ?_, ?_⟩ <;> simp [countKind]
              | ok d =>
                cases repc with
                | error e =>
                    simp only [orchestration, orchestratorRun, handleErrorSteps,
                      loadAssistantResponse, saveAssistantResponse_apply_self,
                      appendResponse_save, updateStatus_save, initialResponse,
                      hext, if_neg hq0]
                    refine ⟨_, rfl, ?_, ?_, ?_, ?_, ?_⟩ <;> simp [countKind]
                | ok rcontent =>
                  rcases hmd : extractResponse (strOf "markdown") rcontent with _ | md
                  · simp only [orchestration, orchestratorRun, handleErrorSteps,
                      loadAssistantResponse, saveAssistantResponse_apply_self,
                      appendResponse_save, updateStatus_save, initialResponse,
                      hext, if_neg hq0, hmd]
                    refine ⟨_, rfl, ?_, ?_, ?_, ?_, ?_⟩ <;> simp [countKind]
                  · by_cases hmd0 : md = []
                    · simp only [orchestration, orchestratorRun, handleErrorSteps,
                        loadAssistantResponse, saveAssistantResponse_apply_self,
                        appendResponse_save, updateStatus_save, initialResponse,
                        hext, if_neg hq0, hmd, hmd0, if_pos]
                      refine ⟨_, rfl, ?_, ?_, ?_, ?_, ?_⟩ <;> simp [countKind]
                    · simp only [orchestration, orchestratorRun, handleErrorSteps,
                        loadAssistantResponse, saveAssistantResponse_apply_self,
                        appendResponse_save, updateStatus_save, initialResponse,
                        hext, if_neg hq0, hmd, if_neg hmd0]
                      refine ⟨_, rfl, ?_, ?_, ?_, ?_, ?_⟩ <;> simp [countKind]

/-- Environment of a concrete run whose first completion text makes
`ExtractResponse` fault (first `</sql>` before the first `<sql>`), so the
task panics and is caught at the task boundary. -/
def panicRunEnv : OrchEnv :=
  { preRun := none
    runEnv :=
      { connect := Except.ok ()
        schema := Except.ok (strOf "Database Schema")
        sqlCompletion := Except.ok (strOf "</sql> x <sql>")
        execResult := Except.error []
        reportCompletion := Except.error [] } }

/-- C3, counterexample.  A run terminated by the caught panic reaches the
`failed` state with `success = false` but with zero error updates: the
recovery path sets the status without appending the error update the claim
requires. -/
theorem panic_path_appends_no_error_update :
    (orchestration panicRunEnv (fun _ => none) (strOf "u3") (strOf "q3")).panicked = true ∧
    ((orchestration panicRunEnv (fun _ => none) (strOf "u3") (strOf "q3")).final
        (strOf "u3")).map
      (fun r => (r.status, r.success, countKind UpdateKind.error r)) =
      some (Status.failed, false, 0) := by
  refine ⟨by decide, by decide⟩

/-! ## C4 -/

/-- C4, amended: in every state reachable through the orchestration path a
record with `status = completed ∧ success = true` carries exactly one
`final_response` update, and in the terminal state the equivalence holds in
both directions.  In the intermediate state between appending the
`final_response` update and writing the terminal status the record already
carries the update while its status is still `in_progress` (see the
counterexample), so the equivalence does not hold at every reachable
state. -/
theorem final_response_iff_amended :
  ∀ (env : OrchEnv) (m0 : StorageMap) (uuid question : Str),
    (∀ m ∈ (orchestration env m0 uuid question).states, ∀ r, m uuid = some r →
      (r.status = Status.completed ∧ r.success = true →
        countKind UpdateKind.final_response r = 1))
    ∧ (∀ r, (orchestration env m0 uuid question).final uuid = some r →
        (countKind UpdateKind.final_response r = 1 ↔
          (r.status = Status.completed ∧ r.success = true))) := by
  intro env m0 uuid question
  rcases env with ⟨pre, ⟨conn, schema, sqlc, execr, repc⟩⟩
  cases pre with
  | some msg =>
      constructor <;>
        simp [orchestration, handleOrchestrationError,
          saveAssistantResponse_apply_self, initialResponse, countKind]
  | none =>
    cases conn with
    | error e =>
        constructor <;>
          simp [orchestration, orchestratorRun, handleErrorSteps,
            loadAssistantResponse, saveAssistantResponse_apply_self,
            appendResponse_save, updateStatus_save, initialResponse, countKind]
    | ok u =>
      cases schema with
      | error e =>
          constructor <;>
            simp [orchestration, orchestratorRun, handleErrorSteps,
              loadAssistantResponse, saveAssistantResponse_apply_self,
              appendResponse_save, updateStatus_save, initialResponse, countKind]
      | ok s =>
        cases sqlc with
        | error e =>
            constructor <;>
              simp [orchestration, orchestratorRun, handleErrorSteps,
                loadAssistantResponse, saveAssistantResponse_apply_self,
                appendResponse_save, updateStatus_save, initialResponse, countKind]
        | ok content =>
          rcases hext : extractResponse (strOf "sql") content with _ | query
          · constructor <;>
              simp [orchestration, orchestratorRun, handleErrorSteps,
                loadAssistantResponse, saveAssistantResponse_apply_self,
                appendResponse_save, updateStatus_save, initialResponse, hext,
                countKind]
          · by_cases hq0 : query = []
            · constructor <;>
                simp [orchestration, orchestratorRun, handleErrorSteps,
                  loadAssistantResponse, saveAssistantResponse_apply_self,
                  appendResponse_save, updateStatus_save, initialResponse, hext,
                  hq0, countKind]
            · cases execr with
              | error e =>
                  constructor <;>
                    simp [orchestration, orchestratorRun, handleErrorSteps,
                      loadAssistantResponse, saveAssistantResponse_apply_self,
                      appendResponse_save, updateStatus_save, initialResponse,
                      hext, hq0, countKind]
              | ok d =>
                cases repc with
                | error e =>
                    constructor <;>
                      simp [orchestration, orchestratorRun, handleErrorSteps,
                        loadAssistantResponse, saveAssistantResponse_apply_self,
                        appendResponse_save, updateStatus_save, initialResponse,
                        hext, hq0, countKind]
                | ok rcontent =>
                  rcases hmd : extractResponse (strOf "markdown") rcontent with _ | md
                  · constructor <;>
                      simp [orchestration, orchestratorRun, handleErrorSteps,
                        loadAssistantResponse, saveAssistantResponse_apply_self,
                        appendResponse_save, updateStatus_save, initialResponse,
                        hext, hq0, hmd, countKind]
                  · by_cases hmd0 : md = []
                    · constructor <;>
                        simp [orchestration, orchestratorRun, handleErrorSteps,
                          loadAssistantResponse, saveAssistantResponse_apply_self,
                          appendResponse_save, updateStatus_save, initialResponse,
                          hext, hq0, hmd, hmd0, countKind]
                    · constructor <;>
                        simp [orchestration, orchestratorRun, handleErrorSteps,
                          loadAssistantResponse, saveAssistantResponse_apply_self,
                          appendResponse_save, updateStatus_save, initialResponse,
                          hext, hq0, hmd, hmd0, countKind]

/-- Environment of a concrete fully successful run. -/
def successRunEnv : OrchEnv :=
  { preRun := none
    runEnv :=
      { connect := Except.ok ()
        schema := Except.ok (strOf "Database Schema")
        sqlCompletion := Except.ok (strOf "<sql>select 1</sql>")
        execResult := Except.ok (strOf "rows")
        reportCompletion := Except.ok (strOf "<markdown>Report</markdown>") } }

/-- C4, counterexample.  On the successful run the ninth reachable state —
the one between appending the `final_response` update and writing the
terminal status — already carries exactly one `final_response` update while
its status is still `in_progress` and its success flag is `true`: a
reachable state where the claimed equivalence fails in the only-if
direction. -/
theorem final_response_present_while_in_progress :
    (orchestration successRunEnv (fun _ => none) (strOf "u4") (strOf "q4")).states.length
      = 10 ∧
    (((orchestration successRunEnv (fun _ => none) (strOf "u4") (strOf "q4")).states.getD
        8 (fun _ => none)) (strOf "u4")).map
      (fun r => (r.status, r.success, countKind UpdateKind.final_response r)) =
      some (Status.in_progress, true, 1) := by
  refine ⟨by decide, by decide⟩

/-! ## C9 -/

theorem holdingCount_update_holding {M : Nat} (s : SysState M) (i : Fin M)
    (h : s i ≠ TaskPhase.holding) :
    holdingCount (Function.update s i TaskPhase.holding) = holdingCount s + 1 := by
  unfold holdingCount
  have hset : (Finset.univ.filter
      fun j => Function.update s i TaskPhase.holding j = TaskPhase.holding) =
      insert i (Finset.univ.filter fun j => s j = TaskPhase.holding) := by
    ext j
    by_cases hj : j = i
    · subst hj
      simp [Function.update_same]
    · simp [Function.update_noteq hj, hj]
  rw [hset, Finset.card_insert_of_not_mem (by simp [h])]

theorem holdingCount_update_done {M : Nat} (s : SysState M) (i : Fin M)
    (h : s i = TaskPhase.holding) :
    holdingCount (Function.update s i TaskPhase.done) = holdingCount s - 1 := by
  unfold holdingCount
  have hset : (Finset.univ.filter
      fun j => Function.update s i TaskPhase.done j = TaskPhase.holding) =
      (Finset.univ.filter fun j => s j = TaskPhase.holding).erase i := by
    ext j
    by_cases hj : j = i
    · subst hj
      simp [Function.update_same]
    · simp [Function.update_noteq hj, hj]
  rw [hset, Finset.card_erase_of_mem (by simp [h])]

/-- C9: with admission limit `N` below the number `M` of simultaneous
tasks, every state reachable by the buffered-channel semantics has at most
`N` tasks holding a slot, and from a state where all `N` slots are taken
the only possible transition is a release by a task that holds a slot — an
acquisition is blocked until then.  Release itself is, by the transition
relation modelling the deferred channel receive, the single way a task
leaves the guarded section on any exit path. -/
theorem admission_bound (M N : Nat) (_hNM : N < M) :
    (∀ s : SysState M, AdmissionReachable N s → holdingCount s ≤ N)
    ∧ (∀ s t : SysState M, holdingCount s = N → AdmissionStep N s t →
        ∃ i, s i = TaskPhase.holding ∧ t = Function.update s i TaskPhase.done) := by
  constructor
  · intro s hs
    induction hs with
    | init =>
        have : (Finset.univ.filter
            fun _ : Fin M => TaskPhase.idle = TaskPhase.holding) = ∅ := by
          simp
        simp [holdingCount, this]
    | step hreach hstep ih =>
        cases hstep with
        | acquire i hidle hroom =>
            rw [holdingCount_update_holding _ i (by simp [hidle])]
            omega
        | release i hhold =>
            rw [holdingCount_update_done _ i hhold]
            omega
  · intro s t hfull hstep
    cases hstep with
    | acquire i hidle hroom => omega
    | release i hhold => exact ⟨i, hhold, rfl⟩

/-- C9, witness: the bound instantiated at limit 2 with 3 tasks. -/
theorem admission_bound_witness :
    (∀ s : SysState 3, AdmissionReachable 2 s → holdingCount s ≤ 2)
    ∧ (∀ s t : SysState 3, holdingCount s = 2 → AdmissionStep 2 s t →
        ∃ i, s i = TaskPhase.holding ∧ t = Function.update s i TaskPhase.done) :=
  admission_bound 3 2 (by decide)

end SmartInsights
